import Mathlib

/-
Verification development for the vsock one-way latency benchmark
(vsock-oneway-latency-benchmark.c).

The embedding below translates the measurement core of the C program into
Lean definitions:

* tsc_t is `unsigned long long`, so all tsc arithmetic is modulo 2^64,
  modelled on `Nat` with explicit `% 2^64`.
* The per-iteration protocol bodies of `run_server` and `run_client` become
  step functions over explicit per-iteration I/O events (the values returned
  by `read`/`write` and by the cycle counter), returning `Option Nat`:
  `none` models `exit(EXIT_FAILURE)`, `some s` models storing sample `s`.
* `print_results` becomes a family of pure functions (`minTsc`, `maxTsc`,
  `meanOf`, `stddevSqOf`, `medianOf`) over a sample list, with the
  floating-point `long double` computations carried out exactly in `ℚ`
  (the reported stddev is the real square root of `stddevSqOf`).
* `qsort` with comparator `cmp_tsc_t` is modelled as a deterministic
  insertion sort that places `x` before `y` exactly when
  `cmp_tsc_t x y <= 0`; it agrees with any qsort result whenever the
  comparator is a consistent ordering, and it exposes the comparator's
  32-bit truncation behaviour faithfully.
* `strtoll(str, &end, 10)` and the argument handling of `main`'s responder
  path are modelled character by character.
-/

namespace VsockOneway

/-- ITERATIONS constant from the source (line 367). -/
def ITERATIONS : Nat := 1000

/-- Modulus of tsc_t (unsigned long long) arithmetic: 2^64. -/
def U64 : Nat := 2 ^ 64

/-- Unsigned 64-bit subtraction a - b as C computes it on tsc_t values. -/
def tscSub (a b : Nat) : Nat := (a % U64 + (U64 - b % U64)) % U64

/-- Sample recorded by the responder at line 612:
ticks[i] = end_rdtsc() - client_send_tsc + client_tsc_offset, where the
long long offset is converted to unsigned long long and the whole
computation is modulo 2^64. -/
def recordedSample (t0 t1 : Nat) (offset : Int) : Nat :=
  (((t1 : Int) - (t0 : Int) + offset) % (U64 : Int)).toNat

/-- Comparator cmp_tsc_t (lines 727-730): computes the unsigned 64-bit
difference *a - *b and truncates it to a 32-bit int (gcc: value modulo 2^32
reinterpreted as two's complement). -/
def cmp_tsc_t (a b : Nat) : Int :=
  let d : Nat := tscSub a b
  let low : Nat := d % 2 ^ 32
  if low < 2 ^ 31 then (low : Int) else (low : Int) - 2 ^ 32

/-- Insert into a list already arranged by cmp_tsc_t: x goes before the
first element y with cmp_tsc_t x y <= 0. -/
def insertCmp (x : Nat) : List Nat → List Nat
  | [] => [x]
  | y :: ys => if cmp_tsc_t x y ≤ 0 then x :: y :: ys else y :: insertCmp x ys

/-- Deterministic model of qsort(ticks+1, ITERATIONS-1, sizeof(tsc_t),
cmp_tsc_t) at line 757: insertion sort driven by the same comparator. -/
def sortCmp : List Nat → List Nat
  | [] => []
  | x :: xs => insertCmp x (sortCmp xs)

/-- Running sum accumulated in a tsc_t variable (line 745): each addition
wraps modulo 2^64. -/
def sumMod (l : List Nat) : Nat := l.foldl (fun s x => (s + x) % U64) 0

/-- min over ticks[1..n-1] starting from ULONG_MAX (lines 736, 743). -/
def minTsc (ticks : List Nat) : Nat :=
  (ticks.drop 1).foldl (fun m x => if x < m then x else m) (U64 - 1)

/-- max over ticks[1..n-1] starting from 0 (lines 737, 744). -/
def maxTsc (ticks : List Nat) : Nat :=
  (ticks.drop 1).foldl (fun m x => if x > m then x else m) 0

/-- avg = sum / (long double) ITERATIONS (line 748), carried out exactly in
ℚ; n is the ITERATIONS constant of the run. -/
def meanOf (n : Nat) (ticks : List Nat) : ℚ :=
  (sumMod (ticks.drop 1) : ℚ) / (n : ℚ)

/-- Radicand of the reported stddev (lines 749-754): the sum over
ticks[1..n-1] of pow(ticks[i] - avg, 2), divided by ITERATIONS; the program
reports sqrt of this value. -/
def stddevSqOf (n : Nat) (ticks : List Nat) : ℚ :=
  (((ticks.drop 1).map (fun x : Nat => ((x : ℚ) - meanOf n ticks) ^ 2)).sum) / (n : ℚ)

/-- Exact rational sum of a sample list: the independent recomputation of
Σx that the spec compares the reducer against. -/
def ratSum (l : List Nat) : ℚ := (l.map (fun x : Nat => (x : ℚ))).sum

/-- The ticks array after line 757: ticks[0] untouched, ticks[1..n-1]
sorted by cmp_tsc_t. -/
def sortedTicks (ticks : List Nat) : List Nat :=
  ticks.take 1 ++ sortCmp (ticks.drop 1)

/-- median reported at line 762: ticks[ITERATIONS/2] of the array after the
qsort call; n is the ITERATIONS constant of the run. -/
def medianOf (n : Nat) (ticks : List Nat) : Nat :=
  (sortedTicks ticks).getD (n / 2) 0

/-- Per-iteration I/O outcomes seen by run_server (lines 586-614): the
ssize_t returned by read, the tsc value deposited in client_send_tsc, the
ssize_t returned by write, and the end_rdtsc() value. -/
structure ServerEvent where
  readRet : Int
  t0 : Nat
  writeRet : Int
  t1 : Nat
deriving DecidableEq, Repr

/-- Value of the size_t variable bytes_read in run_server (line 597): the
ssize_t read return converted to an unsigned 64-bit size_t. -/
def serverBytesRead (e : ServerEvent) : Nat := (e.readRet % (U64 : Int)).toNat

/-- One iteration of run_server's loop (lines 590-613). none models
exit(EXIT_FAILURE); some s models storing sample s into ticks[i].
bytes_read <= 0 on a size_t only holds at 0; sizeof(client_send_tsc) = 8;
SERVER_RESPONSE_LENGTH = 1. -/
def serverStep (offset : Int) (e : ServerEvent) : Option Nat :=
  if serverBytesRead e = 0 ∨ serverBytesRead e ≠ 8 then none
  else if e.writeRet ≠ 1 then none
  else some (recordedSample e.t0 e.t1 offset)

/-- Per-iteration I/O outcomes seen by run_client (lines 701-725):
begin_rdtsc() value, write return, read return, end_rdtsc() value. -/
structure ClientEvent where
  t0 : Nat
  writeRet : Int
  readRet : Int
  t1 : Nat
deriving DecidableEq, Repr

/-- Value of the size_t variable bytes_read in run_client (line 714). -/
def clientBytesRead (e : ClientEvent) : Nat := (e.readRet % (U64 : Int)).toNat

/-- One iteration of run_client's loop (lines 703-724). The write must
return sizeof(begin_ts) = 8 exactly; the read check bytes_read <= 0 is on
an unsigned size_t, so it only fires when the value is 0. On success the
sample is end_rdtsc() - begin_ts in 64-bit unsigned arithmetic. -/
def clientStep (e : ClientEvent) : Option Nat :=
  if e.writeRet ≠ 8 then none
  else if clientBytesRead e = 0 then none
  else some (tscSub e.t1 e.t0)

/-- The fixed-count for loop shared by run_server and run_client: process
events in order; a failing step aborts the loop (and the process). Returns
the samples recorded so far and whether the loop ran to completion. -/
def runLoop {α : Type} (step : α → Option Nat) : List α → List Nat × Bool
  | [] => ([], true)
  | e :: es =>
    match step e with
    | none => ([], false)
    | some s =>
      let r := runLoop step es
      (s :: r.1, r.2)

/-- Observable outcome of one process run: whether the loop body ever ran,
the samples recorded, whether print_results executed, and the exit code. -/
structure Outcome where
  samples : List Nat
  reportPrinted : Bool
  exitCode : Nat
deriving DecidableEq, Repr

/-- run_server followed by main's print_results (lines 833, 870):
exit(EXIT_FAILURE) inside the loop skips print_results and yields a
non-zero exit code; a completed loop reaches print_results and
EXIT_SUCCESS. -/
def serverRun (offset : Int) (events : List ServerEvent) : Outcome :=
  let r := runLoop (serverStep offset) events
  if r.2 then ⟨r.1, true, 0⟩ else ⟨r.1, false, 1⟩

/-- run_client followed by main's print_results (lines 862, 870). -/
def clientRun (events : List ClientEvent) : Outcome :=
  let r := runLoop clientStep events
  if r.2 then ⟨r.1, true, 0⟩ else ⟨r.1, false, 1⟩

/-! Model of strtoll(str, &end, 10) and of main's responder path. -/

/-- LLONG_MAX. -/
def LLONG_MAX : Int := 2 ^ 63 - 1

/-- LLONG_MIN. -/
def LLONG_MIN : Int := -(2 ^ 63)

/-- strtoll clamps out-of-range values to LLONG_MAX / LLONG_MIN. -/
def clampLL (v : Int) : Int :=
  if v > LLONG_MAX then LLONG_MAX else if v < LLONG_MIN then LLONG_MIN else v

/-- Leading run of decimal digits and the rest. -/
def takeDigits : List Char → List Char × List Char
  | [] => ([], [])
  | c :: cs =>
    if c.isDigit then
      let r := takeDigits cs
      (c :: r.1, r.2)
    else ([], c :: cs)

/-- Numeric value of a digit run. -/
def digitsToNat (ds : List Char) : Nat :=
  ds.foldl (fun a c => 10 * a + (c.toNat - 48)) 0

/-- Model of strtoll(s, &end, 10): skip isspace characters, optional sign,
then digits. Returns none when no conversion is performed (end == s), else
some (value, characters after end). -/
def strtoll10 (s : List Char) : Option (Int × List Char) :=
  let s1 := s.dropWhile (fun c => c = ' ' ∨ c = '\t' ∨ c = '\n')
  match s1 with
  | '-' :: rest =>
    let r := takeDigits rest
    if r.1 = [] then none else some (clampLL (-(digitsToNat r.1 : Int)), r.2)
  | '+' :: rest =>
    let r := takeDigits rest
    if r.1 = [] then none else some (clampLL (digitsToNat r.1 : Int), r.2)
  | _ =>
    let r := takeDigits s1
    if r.1 = [] then none else some (clampLL (digitsToNat r.1 : Int), r.2)

/-- parse_client_tsc_offset (lines 405-415): the parsed value when the
conversion consumed at least one character and ended at the terminating
NUL, and -1 otherwise. -/
def parse_client_tsc_offset (s : List Char) : Int :=
  match strtoll10 s with
  | none => -1
  | some (v, rest) => if rest = [] then v else -1

/-- Observable outcome of main's responder (-s) path. -/
structure ServerMainOutcome where
  channelAttempted : Bool
  protocolRan : Bool
  reportPrinted : Bool
  exitCode : Nat
deriving DecidableEq, Repr

/-- Responder path of main (lines 807-839, 870-872): the
listen-and-accept routine for the selected mode runs FIRST (lines
809-824), then argv[4] is parsed (line 826); a parsed value of -1 aborts
with EXIT_FAILURE (lines 827-831) before run_server is called. -/
def serverMain (offsetStr : List Char) (events : List ServerEvent) : ServerMainOutcome :=
  let channelAttempted := true
  let offset := parse_client_tsc_offset offsetStr
  if offset = -1 then
    ⟨channelAttempted, false, false, 1⟩
  else
    let o := serverRun offset events
    ⟨channelAttempted, true, o.reportPrinted, o.exitCode⟩

/-! Helper lemmas about the embedding. -/

theorem sumMod_go (l : List Nat) (a : Nat) (ha : a < U64) :
    l.foldl (fun s x => (s + x) % U64) a = (a + l.sum) % U64 := by
  induction l generalizing a with
  | nil => simpa using (Nat.mod_eq_of_lt ha).symm
  | cons x t ih =>
    have hlt : (a + x) % U64 < U64 := Nat.mod_lt _ (by norm_num [U64])
    simp only [List.foldl_cons, List.sum_cons, ih _ hlt, Nat.mod_add_mod]
    congr 1
    omega

theorem sumMod_eq (l : List Nat) : sumMod l = l.sum % U64 := by
  simpa using sumMod_go l 0 (by norm_num [U64])

theorem insertCmp_perm (x : Nat) (l : List Nat) : (insertCmp x l).Perm (x :: l) := by
  induction l with
  | nil => simp [insertCmp]
  | cons y t ih =>
    by_cases h : cmp_tsc_t x y ≤ 0
    · simp [insertCmp, h]
    · simp only [insertCmp, h, if_false]
      exact ((ih.cons y).trans (List.Perm.swap x y t))

theorem sortCmp_perm (l : List Nat) : (sortCmp l).Perm l := by
  induction l with
  | nil => simp [sortCmp]
  | cons x t ih => exact (insertCmp_perm x (sortCmp t)).trans (ih.cons x)

theorem foldl_min_le_init (l : List Nat) (a : Nat) :
    l.foldl (fun m y => if y < m then y else m) a ≤ a := by
  induction l generalizing a with
  | nil => simp
  | cons y t ih =>
    refine le_trans (ih _) ?_
    by_cases h : y < a <;> simp [h]
    omega

theorem foldl_min_le (x : Nat) (l : List Nat) (hx : x ∈ l) (a : Nat) :
    l.foldl (fun m y => if y < m then y else m) a ≤ x := by
  induction l generalizing a with
  | nil => simp at hx
  | cons y t ih =>
    rcases List.mem_cons.mp hx with h | h
    · subst h
      refine le_trans (foldl_min_le_init t _) ?_
      by_cases h : x < a <;> simp [h]
      omega
    · exact ih h _

theorem foldl_max_ge_init (l : List Nat) (a : Nat) :
    a ≤ l.foldl (fun m y => if y > m then y else m) a := by
  induction l generalizing a with
  | nil => simp
  | cons y t ih =>
    refine le_trans ?_ (ih _)
    by_cases h : y > a <;> simp [h]
    omega

theorem foldl_max_ge (x : Nat) (l : List Nat) (hx : x ∈ l) (a : Nat) :
    x ≤ l.foldl (fun m y => if y > m then y else m) a := by
  induction l generalizing a with
  | nil => simp at hx
  | cons y t ih =>
    rcases List.mem_cons.mp hx with h | h
    · subst h
      refine le_trans ?_ (foldl_max_ge_init t _)
      by_cases h : x > a <;> simp [h]
      omega
    · exact ih h _

theorem getD_mem_of_lt (l : List Nat) (i : Nat) (h : i < l.length) (d : Nat) :
    l.getD i d ∈ l := by
  rw [List.getD_eq_getElem?_getD, List.getElem?_eq_getElem h, Option.getD_some]
  exact List.getElem_mem h

theorem runLoop_complete_length {α : Type} (step : α → Option Nat) (l : List α)
    (h : (runLoop step l).2 = true) : (runLoop step l).1.length = l.length := by
  induction l with
  | nil => simp [runLoop]
  | cons e es ih =>
    cases hstep : step e with
    | none => simp [runLoop, hstep] at h
    | some s =>
      simp only [runLoop, hstep] at h ⊢
      simpa using ih h

theorem runLoop_all_some {α : Type} (step : α → Option Nat) (l : List α)
    (h : ∀ x ∈ l, (step x).isSome) :
    runLoop step l = (l.filterMap step, true) := by
  induction l with
  | nil => simp [runLoop]
  | cons e es ih =>
    obtain ⟨s, hs⟩ := Option.isSome_iff_exists.mp (h e (by simp))
    have ih2 := ih (fun x hx => h x (by simp [hx]))
    simp [runLoop, hs, ih2, List.filterMap_cons]

theorem runLoop_fail {α : Type} (step : α → Option Nat) (e : α) (hstep : step e = none)
    (pre post : List α) (h : ∀ x ∈ pre, (step x).isSome) :
    runLoop step (pre ++ e :: post) = (pre.filterMap step, false) := by
  induction pre with
  | nil => simp [runLoop, hstep]
  | cons p t ih =>
    obtain ⟨s, hs⟩ := Option.isSome_iff_exists.mp (h p (by simp))
    have ih2 := ih (fun x hx => h x (by simp [hx]))
    simp [runLoop, hs, ih2, List.filterMap_cons]

theorem ratSum_eq (l : List Nat) : ratSum l = (l.sum : ℚ) := by
  simpa [ratSum] using (Nat.cast_list_sum l).symm

theorem ratSum_replicate (k a : Nat) : ratSum (List.replicate k a) = (k : ℚ) * a := by
  simp [ratSum, List.map_replicate, List.sum_replicate, nsmul_eq_mul]

theorem filterMap_replicate_some {α : Type} (step : α → Option Nat) (e : α) (s : Nat)
    (h : step e = some s) (k : Nat) :
    List.filterMap step (List.replicate k e) = List.replicate k s := by
  induction k with
  | zero => simp
  | succ m ih => simp [List.replicate_succ, List.filterMap_cons, h, ih]

/-! Claim theorems. -/

/-- Claim C1: for every responder iteration whose read delivered the full
8-byte timestamp and whose acknowledgment write returned 1 byte, the
recorded sample is exactly t1 - t0 + offset in 64-bit unsigned arithmetic
and nothing else; whenever the integer t1 - t0 + offset is in unsigned
64-bit range the sample equals it exactly, and t0 = 1000, t1 = 1500,
offset = -200 records 300. -/
theorem C1_responder_sample (offset : Int) (e : ServerEvent)
    (hr : serverBytesRead e = 8) (hw : e.writeRet = 1) :
    serverStep offset e = some (recordedSample e.t0 e.t1 offset) ∧
    (∀ (t0 t1 : Nat) (off : Int), 0 ≤ (t1 : Int) - t0 + off →
      (t1 : Int) - t0 + off < (U64 : Int) →
      (recordedSample t0 t1 off : Int) = (t1 : Int) - t0 + off) ∧
    recordedSample 1000 1500 (-200) = 300 := by
  refine ⟨?_, ?_, by decide⟩
  · simp [serverStep, hr, hw]
  · intro t0 t1 off h0 h1
    simp only [recordedSample]
    rw [Int.emod_eq_of_lt h0 h1, Int.toNat_of_nonneg h0]

theorem C1_responder_sample_witness :
    serverBytesRead ⟨8, 1000, 1, 1500⟩ = 8 ∧
    (⟨8, 1000, 1, 1500⟩ : ServerEvent).writeRet = 1 ∧
    serverStep (-200) ⟨8, 1000, 1, 1500⟩ = some (recordedSample 1000 1500 (-200)) :=
  ⟨by decide, by decide,
    (C1_responder_sample (-200) ⟨8, 1000, 1, 1500⟩ (by decide) (by decide)).1⟩

/-- Claim C2: for every run with ITERATIONS iteration events, either the
loop completes, the sample sequence has exactly ITERATIONS entries and the
report is printed, or the process exits non-zero and no report is printed;
in particular a write returning fewer bytes than requested at any
iteration (server: fewer than 1; client: fewer than 8) stops the run right
there: only the samples of the earlier iterations were recorded, the exit
code is non-zero, and no report is printed. -/
theorem C2_all_or_nothing :
    (∀ (offset : Int) (events : List ServerEvent), events.length = ITERATIONS →
      ((serverRun offset events).reportPrinted = true ∧
        (serverRun offset events).samples.length = ITERATIONS) ∨
      ((serverRun offset events).exitCode ≠ 0 ∧
        (serverRun offset events).reportPrinted = false)) ∧
    (∀ events : List ClientEvent, events.length = ITERATIONS →
      ((clientRun events).reportPrinted = true ∧
        (clientRun events).samples.length = ITERATIONS) ∨
      ((clientRun events).exitCode ≠ 0 ∧ (clientRun events).reportPrinted = false)) ∧
    (∀ (offset : Int) (pre post : List ServerEvent) (e : ServerEvent),
      (pre ++ e :: post).length = ITERATIONS →
      (∀ x ∈ pre, (serverStep offset x).isSome) →
      serverBytesRead e = 8 → e.writeRet < 1 →
      serverRun offset (pre ++ e :: post) =
        ⟨pre.filterMap (serverStep offset), false, 1⟩) ∧
    (∀ (pre post : List ClientEvent) (e : ClientEvent),
      (pre ++ e :: post).length = ITERATIONS →
      (∀ x ∈ pre, (clientStep x).isSome) →
      e.writeRet < 8 →
      clientRun (pre ++ e :: post) = ⟨pre.filterMap clientStep, false, 1⟩) := by
  refine ⟨?_, ?_, ?_, ?_⟩
  · intro offset events hlen
    cases h : (runLoop (serverStep offset) events).2 with
    | true =>
      left
      refine ⟨by simp [serverRun, h], ?_⟩
      simp only [serverRun, h, if_true]
      rw [runLoop_complete_length _ _ h, hlen]
    | false => right; simp [serverRun, h]
  · intro events hlen
    cases h : (runLoop clientStep events).2 with
    | true =>
      left
      refine ⟨by simp [clientRun, h], ?_⟩
      simp only [clientRun, h, if_true]
      rw [runLoop_complete_length _ _ h, hlen]
    | false => right; simp [clientRun, h]
  · intro offset pre post e hlen hpre hread hw
    have hne : e.writeRet ≠ 1 := by omega
    have hstep : serverStep offset e = none := by simp [serverStep, hread, hne]
    simp [serverRun, runLoop_fail _ _ hstep _ _ hpre]
  · intro pre post e hlen hpre hw
    have hne : e.writeRet ≠ 8 := by omega
    have hstep : clientStep e = none := by simp [clientStep, hne]
    simp [clientRun, runLoop_fail _ _ hstep _ _ hpre]

theorem C2_all_or_nothing_witness :
    ((([] : List ServerEvent) ++
        (⟨8, 5, 0, 10⟩ : ServerEvent) :: List.replicate 999 ⟨8, 5, 1, 10⟩).length
      = ITERATIONS) ∧
    serverBytesRead ⟨8, 5, 0, 10⟩ = 8 ∧ ((⟨8, 5, 0, 10⟩ : ServerEvent).writeRet < 1) ∧
    serverRun 7 ([] ++ (⟨8, 5, 0, 10⟩ : ServerEvent) :: List.replicate 999 ⟨8, 5, 1, 10⟩) =
      ⟨List.filterMap (serverStep 7) [], false, 1⟩ :=
  ⟨by simp only [List.nil_append, List.length_cons, List.length_replicate, ITERATIONS],
    by decide, by decide,
    C2_all_or_nothing.2.2.1 7 [] (List.replicate 999 ⟨8, 5, 1, 10⟩) ⟨8, 5, 0, 10⟩
      (by simp only [List.nil_append, List.length_cons, List.length_replicate, ITERATIONS])
      (by simp) (by decide) (by decide)⟩

/-- Claim C3 counterexample: for the fully populated 1000-entry array
0 :: 999 copies of 1000, the reducer reports mean 999 (it divides the
post-exclusion sum by ITERATIONS = 1000), while the arithmetic average of
the 999 post-exclusion samples is 1000; the gap of 1 is far outside any
floating-point tolerance for values of this size. -/
theorem C3_cex :
    meanOf ITERATIONS ((0 : Nat) :: List.replicate 999 1000) = 999 ∧
    ratSum (((0 : Nat) :: List.replicate 999 1000).drop 1) / ((ITERATIONS : ℚ) - 1)
      = 1000 ∧
    (999 : ℚ) ≠ 1000 := by
  refine ⟨?_, ?_, by norm_num⟩
  · rw [meanOf]
    simp only [List.drop_succ_cons, List.drop_zero, sumMod_eq, List.sum_replicate,
      smul_eq_mul, ITERATIONS, U64]
    norm_num
  · simp only [List.drop_succ_cons, List.drop_zero, ratSum_replicate, ITERATIONS]
    norm_num

/-- Claim C3 amended: the reducer's mean divides the post-exclusion sum by
the full iteration count N = ITERATIONS, not by N - 1: for every fully
populated sample array whose post-exclusion sum does not wrap the 64-bit
accumulator, the reported mean equals (sum of samples[1..N-1])/N,
equivalently (N-1)/N times the post-exclusion arithmetic average. -/
theorem C3_mean_divides_by_N (ticks : List Nat)
    (hlen : ticks.length = ITERATIONS) (hsum : (ticks.drop 1).sum < U64) :
    meanOf ITERATIONS ticks = ratSum (ticks.drop 1) / (ITERATIONS : ℚ) ∧
    meanOf ITERATIONS ticks
        = ((ITERATIONS : ℚ) - 1) / (ITERATIONS : ℚ) *
            (ratSum (ticks.drop 1) / ((ITERATIONS : ℚ) - 1)) := by
  have h1 : meanOf ITERATIONS ticks = ratSum (ticks.drop 1) / (ITERATIONS : ℚ) := by
    rw [meanOf, sumMod_eq, Nat.mod_eq_of_lt hsum, ratSum_eq]
  refine ⟨h1, ?_⟩
  rw [h1]
  have h2 : ((ITERATIONS : ℚ) - 1) ≠ 0 := by norm_num [ITERATIONS]
  have h3 : (ITERATIONS : ℚ) ≠ 0 := by norm_num [ITERATIONS]
  field_simp
  ring

theorem C3_mean_divides_by_N_witness :
    ((0 : Nat) :: List.replicate 999 1000).length = ITERATIONS ∧
    (((0 : Nat) :: List.replicate 999 1000).drop 1).sum < U64 ∧
    meanOf ITERATIONS ((0 : Nat) :: List.replicate 999 1000)
      = ratSum (((0 : Nat) :: List.replicate 999 1000).drop 1) / (ITERATIONS : ℚ) :=
  ⟨by simp only [List.length_cons, List.length_replicate, ITERATIONS],
    by
      simp only [List.drop_succ_cons, List.drop_zero, List.sum_replicate, smul_eq_mul, U64]
      norm_num,
    (C3_mean_divides_by_N _
      (by simp only [List.length_cons, List.length_replicate, ITERATIONS])
      (by
        simp only [List.drop_succ_cons, List.drop_zero, List.sum_replicate, smul_eq_mul, U64]
        norm_num)).1⟩

/-- Claim C4 counterexample: for the fully populated 1000-entry array whose
999 post-exclusion samples all equal 10, the reported stddev is
sqrt(999/10^7), which is positive, not 0: the mean divides by N = 1000, so
every deviation is 1/100 instead of 0. -/
theorem C4_cex :
    stddevSqOf ITERATIONS ((0 : Nat) :: List.replicate 999 10) = 999 / 10 ^ 7 ∧
    Real.sqrt ((stddevSqOf ITERATIONS ((0 : Nat) :: List.replicate 999 10) : ℚ) : ℝ)
      ≠ 0 := by
  have hmean : meanOf ITERATIONS ((0 : Nat) :: List.replicate 999 10) = 999 / 100 := by
    rw [meanOf]
    simp only [List.drop_succ_cons, List.drop_zero, sumMod_eq, List.sum_replicate,
      smul_eq_mul, ITERATIONS, U64]
    norm_num
  have h : stddevSqOf ITERATIONS ((0 : Nat) :: List.replicate 999 10) = 999 / 10 ^ 7 := by
    rw [stddevSqOf, hmean]
    simp only [List.drop_succ_cons, List.drop_zero, List.map_replicate,
      List.sum_replicate, nsmul_eq_mul, ITERATIONS]
    norm_num
  refine ⟨h, ?_⟩
  rw [h]
  have hpos : (0 : ℝ) < ((999 / 10 ^ 7 : ℚ) : ℝ) := by norm_num
  exact ne_of_gt (Real.sqrt_pos.mpr hpos)

/-- Claim C4 amended: for a fully populated array whose post-exclusion
samples all equal c (with no 64-bit accumulator wrap), the reported
stddev^2 is (N-1) * c^2 / N^3 — because the mean's divisor is N rather
than N - 1 — so the reported stddev is 0 if and only if c = 0. -/
theorem C4_stddev_identical (n t0 c : Nat) (hn : 2 ≤ n)
    (hc : (n - 1) * c < U64) :
    stddevSqOf n (t0 :: List.replicate (n - 1) c)
        = ((n : ℚ) - 1) * (c : ℚ) ^ 2 / (n : ℚ) ^ 3 ∧
    (Real.sqrt ((stddevSqOf n (t0 :: List.replicate (n - 1) c) : ℚ) : ℝ) = 0 ↔ c = 0) := by
  have hn0 : (n : ℚ) ≠ 0 := Nat.cast_ne_zero.mpr (by omega)
  have hn1 : (1 : ℚ) ≤ (n : ℚ) - 1 := by
    have : ((2 : ℕ) : ℚ) ≤ (n : ℚ) := Nat.cast_le.mpr hn
    push_cast at this
    linarith
  have hcast : (((n - 1 : ℕ) : ℚ)) = (n : ℚ) - 1 := by
    have : 1 ≤ n := by omega
    push_cast [this]
    ring
  have hmean : meanOf n (t0 :: List.replicate (n - 1) c) = ((n : ℚ) - 1) * c / n := by
    rw [meanOf]
    simp only [List.drop_succ_cons, List.drop_zero, sumMod_eq, List.sum_replicate,
      smul_eq_mul, Nat.mod_eq_of_lt hc]
    push_cast [hcast]
    ring
  have hdev : ((c : ℚ) - ((n : ℚ) - 1) * c / n) = (c : ℚ) / n := by
    field_simp
    ring
  have hval : stddevSqOf n (t0 :: List.replicate (n - 1) c)
      = ((n : ℚ) - 1) * (c : ℚ) ^ 2 / (n : ℚ) ^ 3 := by
    rw [stddevSqOf, hmean]
    simp only [List.drop_succ_cons, List.drop_zero, List.map_replicate,
      List.sum_replicate, nsmul_eq_mul, hdev, hcast]
    ring
  refine ⟨hval, ?_⟩
  rw [hval, Real.sqrt_eq_zero']
  constructor
  · intro hle
    by_contra hc0
    have hcpos : (0 : ℚ) < (c : ℚ) := by
      have : 0 < c := Nat.pos_of_ne_zero hc0
      exact_mod_cast this
    have hq : (0 : ℚ) < ((n : ℚ) - 1) * (c : ℚ) ^ 2 / (n : ℚ) ^ 3 := by
      have hnpos : (0 : ℚ) < (n : ℚ) := by positivity
      have : (0 : ℚ) < (n : ℚ) - 1 := by linarith
      positivity
    have hr : (0 : ℝ) < ((((n : ℚ) - 1) * (c : ℚ) ^ 2 / (n : ℚ) ^ 3 : ℚ) : ℝ) := by
      exact_mod_cast hq
    linarith
  · intro hc0
    subst hc0
    push_cast
    norm_num

theorem C4_stddev_identical_witness :
    2 ≤ 4 ∧ (4 - 1) * 0 < U64 ∧
    (Real.sqrt ((stddevSqOf 4 ((0 : Nat) :: List.replicate (4 - 1) 0) : ℚ) : ℝ) = 0 ↔
      (0 : Nat) = 0) :=
  ⟨by norm_num, by norm_num [U64],
    (C4_stddev_identical 4 0 0 (by norm_num) (by norm_num [U64])).2⟩

/-- Claim C5 counterexample: for N = 4 with post-exclusion samples
[10, 20, 30] the reducer reports median 20, not 30: ticks[4/2] reads slot
2 of the FULL array, whose sorted region starts at slot 1, so it is the
second (zero-based index 1) element of the sorted post-exclusion array. -/
theorem C5_cex :
    medianOf 4 [0, 10, 20, 30] = 20 ∧ medianOf 4 [0, 10, 20, 30] ≠ 30 := by
  constructor <;> decide

/-- Claim C5 amended: the median is element ⌊N/2⌋ of the full ticks array
after its slots 1..N-1 are sorted, which is element ⌊N/2⌋ - 1 (zero-based)
of the sorted post-exclusion array — not element ⌊N/2⌋ of it — and for a
run with N = 4 whose post-exclusion samples are [10, 20, 30] the reported
median is 20. -/
theorem C5_median_index :
    (∀ (n : Nat) (ticks : List Nat), ticks ≠ [] → 1 ≤ n / 2 →
      medianOf n ticks = (sortCmp (ticks.drop 1)).getD (n / 2 - 1) 0) ∧
    ∀ t0 : Nat, medianOf 4 [t0, 10, 20, 30] = 20 := by
  constructor
  · intro n ticks hne hn
    obtain ⟨h, t, rfl⟩ := List.exists_cons_of_ne_nil hne
    rw [medianOf, sortedTicks]
    have htake : (h :: t).take 1 = [h] := by simp
    have hdrop : (h :: t).drop 1 = t := by simp
    rw [htake, hdrop, List.getD_append_right _ _ _ _ (by simpa using hn)]
    simp
  · intro t0
    have hs : sortCmp [10, 20, 30] = [10, 20, 30] := by decide
    rw [medianOf, sortedTicks]
    have htake : ([t0, 10, 20, 30] : List Nat).take 1 = [t0] := by simp
    have hdrop : ([t0, 10, 20, 30] : List Nat).drop 1 = [10, 20, 30] := by simp
    rw [htake, hdrop, hs]
    rfl

theorem C5_median_index_witness :
    ([0, 10, 20, 30] : List Nat) ≠ [] ∧ 1 ≤ 4 / 2 ∧
    medianOf 4 [0, 10, 20, 30]
      = (sortCmp (([0, 10, 20, 30] : List Nat).drop 1)).getD (4 / 2 - 1) 0 :=
  ⟨by decide, by decide, C5_median_index.1 4 [0, 10, 20, 30] (by decide) (by decide)⟩

/-- Claim C6: for every fully populated 1000-entry sample array, the
reported min, median and max over the post-exclusion samples satisfy
min ≤ median ≤ max: whatever order the comparator produces, the median
slot holds some element of the post-exclusion multiset, and min/max are
folds over that same multiset. -/
theorem C6_min_median_max (ticks : List Nat) (hlen : ticks.length = ITERATIONS) :
    minTsc ticks ≤ medianOf ITERATIONS ticks ∧
    medianOf ITERATIONS ticks ≤ maxTsc ticks := by
  obtain ⟨h, t, rfl⟩ := List.exists_cons_of_ne_nil
    (l := ticks) (by
      intro hnil
      rw [hnil] at hlen
      simp [ITERATIONS] at hlen)
  have hlt : t.length = 999 := by
    simp only [List.length_cons, ITERATIONS] at hlen
    omega
  have htake : (h :: t).take 1 = [h] := by simp
  have hdrop : (h :: t).drop 1 = t := by simp
  have hmed : medianOf ITERATIONS (h :: t) = (sortCmp t).getD 499 0 := by
    rw [medianOf, sortedTicks, htake, hdrop,
      List.getD_append_right _ _ _ _ (by norm_num [ITERATIONS])]
    norm_num [ITERATIONS]
  have hsl : (sortCmp t).length = 999 := by rw [(sortCmp_perm t).length_eq, hlt]
  have hmem : (sortCmp t).getD 499 0 ∈ t :=
    (sortCmp_perm t).mem_iff.mp (getD_mem_of_lt _ _ (by omega) 0)
  constructor
  · rw [hmed]
    have hmin : minTsc (h :: t)
        = t.foldl (fun m x => if x < m then x else m) (U64 - 1) := by
      rw [minTsc, hdrop]
    rw [hmin]
    exact foldl_min_le _ _ hmem _
  · rw [hmed]
    have hmax : maxTsc (h :: t) = t.foldl (fun m x => if x > m then x else m) 0 := by
      rw [maxTsc, hdrop]
    rw [hmax]
    exact foldl_max_ge _ _ hmem _

theorem C6_min_median_max_witness :
    (List.replicate 1000 (7 : Nat)).length = ITERATIONS ∧
    (minTsc (List.replicate 1000 7) ≤ medianOf ITERATIONS (List.replicate 1000 7) ∧
      medianOf ITERATIONS (List.replicate 1000 7) ≤ maxTsc (List.replicate 1000 7)) :=
  ⟨by simp only [List.length_replicate, ITERATIONS],
    C6_min_median_max _ (by simp only [List.length_replicate, ITERATIONS])⟩

/-- Claim C7 evaluated at its failing input: in run_client bytes_read is a
size_t, so a read that FAILS (returns -1) stores 2^64 - 1 and the check
bytes_read <= 0 does not fire: that iteration records a sample and the run
continues to completion with a printed report; only an empty read (0)
terminates. The code thus contradicts the claim (and the intent of its own
perror/exit branch) for failed, negative-return reads. -/
theorem C7_failed_read_not_fatal :
    clientBytesRead ⟨100, 8, -1, 600⟩ = 2 ^ 64 - 1 ∧
    clientStep ⟨100, 8, -1, 600⟩ = some (tscSub 600 100) ∧
    clientStep ⟨100, 8, 0, 600⟩ = none ∧
    clientRun ((⟨100, 8, -1, 600⟩ : ClientEvent) ::
        List.replicate (ITERATIONS - 1) ⟨100, 8, 1, 600⟩) =
      ⟨List.replicate ITERATIONS (tscSub 600 100), true, 0⟩ := by
  have h1 : clientStep ⟨100, 8, -1, 600⟩ = some (tscSub 600 100) := by decide
  have h2 : clientStep ⟨100, 8, 1, 600⟩ = some (tscSub 600 100) := by decide
  refine ⟨by decide, h1, by decide, ?_⟩
  have hall : ∀ x ∈ ((⟨100, 8, -1, 600⟩ : ClientEvent) ::
      List.replicate (ITERATIONS - 1) ⟨100, 8, 1, 600⟩), (clientStep x).isSome := by
    intro x hx
    rcases List.mem_cons.mp hx with rfl | hx
    · rw [h1]; rfl
    · rw [List.eq_of_mem_replicate hx, h2]; rfl
  have hrun := runLoop_all_some clientStep _ hall
  have hfm : ((⟨100, 8, -1, 600⟩ : ClientEvent) ::
      List.replicate (ITERATIONS - 1) ⟨100, 8, 1, 600⟩).filterMap clientStep
      = List.replicate ITERATIONS (tscSub 600 100) := by
    rw [List.filterMap_cons_some h1, filterMap_replicate_some _ _ _ h2]
    rfl
  rw [hfm] at hrun
  simp [clientRun, hrun]

/-- Claim C8 counterexample: in responder mode with the malformed offset
string "abc", main attempts listen/accept BEFORE parsing the offset (the
mode switch at lines 809-824 precedes parse_client_tsc_offset at line
826), so the channel IS attempted; the process then exits non-zero without
running any protocol iteration. -/
theorem C8_cex :
    (serverMain ['a', 'b', 'c'] []).channelAttempted = true ∧
    (serverMain ['a', 'b', 'c'] []).exitCode ≠ 0 ∧
    (serverMain ['a', 'b', 'c'] []).protocolRan = false := by
  refine ⟨rfl, ?_, rfl⟩
  decide

/-- Claim C8 amended: a malformed clock-offset string in responder mode is
detected only AFTER the channel is established — listen/accept runs before
the offset is parsed — and the process then exits non-zero without running
any protocol iteration and without printing a report. -/
theorem C8_arg_error_after_channel (s : List Char) (events : List ServerEvent)
    (h : parse_client_tsc_offset s = -1) :
    serverMain s events = ⟨true, false, false, 1⟩ := by
  simp [serverMain, h]

theorem C8_arg_error_after_channel_witness :
    parse_client_tsc_offset ['a', 'b', 'c'] = -1 ∧
    serverMain ['a', 'b', 'c'] [] = ⟨true, false, false, 1⟩ :=
  ⟨by decide, C8_arg_error_after_channel ['a', 'b', 'c'] [] (by decide)⟩

/-- Claim C9: cmp_tsc_t truncates the unsigned 64-bit difference to a
32-bit int, so there are samples a < b on which it does not return a
negative value (difference 2^32: result 0; difference 2^31 + 1: result
positive), and consequently the comparator-driven pre-median sort can
leave a sample array in non-ascending 64-bit order. -/
theorem C9_comparator_truncation :
    (∃ a b : Nat, a < b ∧ 0 ≤ cmp_tsc_t a b) ∧
    (∃ a b : Nat, a < b ∧ 0 < cmp_tsc_t a b) ∧
    ∃ l : List Nat, ¬ List.Sorted (· ≤ ·) (sortCmp l) := by
  refine ⟨⟨0, 2 ^ 32, by decide, by decide⟩, ⟨0, 2 ^ 31 + 1, by decide, by decide⟩,
    ⟨[2 ^ 32, 0], ?_⟩⟩
  have hs : sortCmp [2 ^ 32, 0] = [2 ^ 32, 0] := by decide
  rw [hs, List.sorted_cons]
  intro hsort
  have := hsort.1 0 (by simp)
  omega

/-- Claim C10: parse_client_tsc_offset returns -1 both for the valid input
"-1" (which strtoll parses successfully) and for malformed input, and main
treats a parsed -1 as failure, so with offset string "-1" the responder
exits non-zero without running any protocol iteration, although -1 is a
representable signed 64-bit offset. -/
theorem C10_offset_minus_one_rejected :
    parse_client_tsc_offset ['-', '1'] = -1 ∧
    parse_client_tsc_offset ['x'] = -1 ∧
    LLONG_MIN ≤ -1 ∧ (-1 : Int) ≤ LLONG_MAX ∧
    ∀ events : List ServerEvent,
      (serverMain ['-', '1'] events).exitCode = 1 ∧
      (serverMain ['-', '1'] events).protocolRan = false ∧
      (serverMain ['-', '1'] events).reportPrinted = false := by
  refine ⟨by decide, by decide, by decide, by decide, fun events => ?_⟩
  have h : parse_client_tsc_offset ['-', '1'] = -1 := by decide
  refine ⟨?_, ?_, ?_⟩ <;> simp [serverMain, h]

end VsockOneway
